import Mathlib

set_option maxRecDepth 100000

/-!
Verification of the Digital FTE pipeline (orchestrator, priority classifier,
retry/quarantine sweeper, reply extraction) against its natural-language
specification.

The Python sources are shallowly embedded: text is `List Char`, the Python
string operations the pipeline uses (`find`, slicing, `strip`, `splitlines`,
`split` with maxsplit, `replace`, `lower`, containment) are executable Lean
functions, and the orchestrator's filesystem side effects are explicit state
passing over an `OrchState` record (folders are association lists from file
name to file content).
-/

namespace DigitalFTE

/-- Text, modelling a Python `str` (ASCII in this pipeline). -/
abbrev Str := List Char

/-- Whitespace characters stripped by Python `str.strip()` (ASCII subset). -/
def pyIsSpace (c : Char) : Bool :=
  c = ' ' || c = '\t' || c = '\n' || c = '\x0d' || c = Char.ofNat 11 || c = Char.ofNat 12

/-- Python `s.lstrip()`. -/
def pyLStrip (s : Str) : Str := s.dropWhile pyIsSpace

/-- Python `s.strip()`: drop whitespace from both ends. -/
def pyStrip (s : Str) : Str :=
  ((s.dropWhile pyIsSpace).reverse.dropWhile pyIsSpace).reverse

/-- Python `s.lower()` (ASCII case folding, as used on the email headers). -/
def pyLower (s : Str) : Str := s.map Char.toLower

/-- Python `sub in s`: substring containment. -/
def pyContains (hay needle : Str) : Bool :=
  if needle.isPrefixOf hay then true
  else
    match hay with
    | [] => false
    | _ :: t => pyContains t needle

/-- Python `s.find(sub)`: index of the first occurrence, `none` for `-1`. -/
def pyFind (hay needle : Str) : Option Nat :=
  if needle.isPrefixOf hay then some 0
  else
    match hay with
    | [] => none
    | _ :: t => (pyFind t needle).map (· + 1)

/-- Python slice `s[a:b]` (with `0 ≤ a`, `0 ≤ b`). -/
def pySlice (s : Str) (a b : Nat) : Str := (s.drop a).take (b - a)

/-- Python `s.startswith(p)`. -/
def pyStartsWith (s p : Str) : Bool := p.isPrefixOf s

/-- Python `s.endswith(p)`. -/
def pyEndsWith (s p : Str) : Bool := p.reverse.isPrefixOf s.reverse

/-- Python `s.split(sep, maxsplit)`: split at the first `n` occurrences of
`sep` (`sep` non-empty in every use in this code base). -/
def pySplitN (sep : Str) : Nat → Str → List Str
  | 0, s => [s]
  | n + 1, s =>
    match pyFind s sep with
    | none => [s]
    | some i => pySlice s 0 i :: pySplitN sep n (s.drop (i + sep.length))

/-- Helper for `pySplitLines`; `cur` is the current line, reversed. -/
def pySplitLinesGo (cur : Str) : Str → List Str
  | [] => if cur.isEmpty then [] else [cur.reverse]
  | '\n' :: rest => cur.reverse :: pySplitLinesGo [] rest
  | '\x0d' :: '\n' :: rest => cur.reverse :: pySplitLinesGo [] rest
  | '\x0d' :: rest => cur.reverse :: pySplitLinesGo [] rest
  | c :: rest => pySplitLinesGo (c :: cur) rest

/-- Python `s.splitlines()` (newline / carriage-return terminators). -/
def pySplitLines (s : Str) : List Str := pySplitLinesGo [] s

/-- Helper for `pyReplace`: the pattern is `o :: os` (non-empty).  The `Nat`
argument is recursion fuel; every step consumes at least one character, so
fuel `s.length` always suffices (the `0, s => s` arm is unreachable from
`pyReplace`). -/
def pyReplaceGo (o : Char) (os new : Str) : Nat → Str → Str
  | _, [] => []
  | 0, s => s
  | fuel + 1, c :: rest =>
    if (o :: os).isPrefixOf (c :: rest) then
      new ++ pyReplaceGo o os new fuel (rest.drop os.length)
    else
      c :: pyReplaceGo o os new fuel rest

/-- Python `s.replace(old, new)`: replace every occurrence, left to right.
(Python's behaviour for empty `old` is not used by this code base; we return
`s` unchanged in that case.) -/
def pyReplace (s old new : Str) : Str :=
  match old with
  | [] => s
  | o :: os => pyReplaceGo o os new s.length s

/-- Lexicographic ordering on text by code point, as Python compares `str`
(and hence how `sorted` orders `Path`s that share a directory). -/
def pyStrLt : Str → Str → Bool
  | [], [] => false
  | [], _ :: _ => true
  | _ :: _, [] => false
  | a :: as, b :: bs =>
    if a.toNat < b.toNat then true
    else if b.toNat < a.toNat then false
    else pyStrLt as bs

/-- Insert into a list sorted by `pyStrLt` (helper for `pySorted`). -/
def pySortInsert (x : Str) : List Str → List Str
  | [] => [x]
  | y :: ys => if pyStrLt x y then x :: y :: ys else y :: pySortInsert x ys

/-- Python `sorted` on a list of names (stable; lexicographic). -/
def pySorted : List Str → List Str
  | [] => []
  | x :: xs => pySortInsert x (pySorted xs)

/-- Lookup in a Python-dict modelled as an insertion-ordered association
list: the last binding of a key wins, `none` when the key is absent. -/
def dictGet (m : List (Str × Str)) (k : Str) : Option Str :=
  (m.reverse.find? (fun p => p.1 = k)).map (·.2)

/-- Python `d.get(k, default)`. -/
def dictGetD (m : List (Str × Str)) (k : Str) (d : Str) : Str :=
  (dictGet m k).getD d

/-- Parse one line of the header block as `yaml.safe_load` treats it on the
restricted `key: value` mappings this pipeline writes: blank lines and `#`
comments are skipped (`some none`); a `key: value` line yields the stripped
key and the stripped value, with one level of double quotes removed from a
double-quoted value; anything else — no colon, an unterminated quote, or a
plain scalar containing a further `: ` (a YAML scanner error) — fails
(`none`). -/
def yamlParseLine (l : Str) : Option (Option (Str × Str)) :=
  if pyStrip l = [] then some none
  else if pyStartsWith (pyStrip l) "#".data then some none
  else
    match pySplitN ":".data 1 l with
    | [k, v] =>
      let v' := pyStrip v
      if pyStartsWith v' "\"".data then
        if 2 ≤ v'.length && v'.getLast? = some '"' then
          some (some (pyStrip k, (v'.drop 1).dropLast))
        else none
      else if pyContains v' ": ".data then none
      else some (some (pyStrip k, v'))
    | _ => none

/-- Parse a header block (list of lines) into a mapping, `none` on a YAML
error. -/
def yamlParseMap : List Str → Option (List (Str × Str))
  | [] => some []
  | l :: ls =>
    match yamlParseLine l, yamlParseMap ls with
    | some none, some m => some m
    | some (some kv), some m => some (kv :: m)
    | _, _ => none

/-- `src/utils.py parse_frontmatter`: split the text on the first two `---`
occurrences; when the text starts with `---` and both delimiters are present,
parse the block between them as a YAML mapping, else (or on a YAML error)
return the empty mapping. -/
def parse_frontmatter (text : Str) : List (Str × Str) :=
  if ¬ pyStartsWith text "---".data then []
  else
    match pySplitN "---".data 2 text with
    | [_, block, _] =>
      match yamlParseMap (pySplitLines block) with
      | some m => m
      | none => []
    | _ => []

/-- The literal `---BEGIN REPLY---` marker. -/
def beginMarker : Str := "---BEGIN REPLY---".data

/-- The literal `---END REPLY---` marker. -/
def endMarker : Str := "---END REPLY---".data

/-- `src/utils.py extract_reply_block`: locate the first occurrence of each
marker; if either is absent return `none`, else return the stripped text
between the end of the BEGIN marker and the start of the END marker. -/
def extract_reply_block (text : Str) : Option Str :=
  match pyFind text beginMarker, pyFind text endMarker with
  | some s, some e => some (pyStrip (pySlice text (s + beginMarker.length) e))
  | _, _ => none

/-- `src/priority.py URGENCY_KEYWORDS`. -/
def URGENCY_KEYWORDS : List Str :=
  ["urgent".data, "asap".data, "deadline".data, "overdue".data]

/-- `src/priority.py NEWSLETTER_PATTERNS`. -/
def NEWSLETTER_PATTERNS : List Str :=
  ["noreply@".data, "no-reply@".data, "newsletter@".data,
   "notifications@".data, "mailer-daemon@".data]

/-- `src/priority.py classify_priority`: lower-case subject and body; first
urgency keyword hit wins (`high`), then a case-insensitive VIP sender match
(`high`), then a newsletter/no-reply pattern in the sender (`low`), else
`normal`. The source's early-`return` loops are `List.any` scans. -/
def classify_priority (subject body sender : Str) (vip_senders : List Str) : Str :=
  let subject_lower := pyLower subject
  let body_lower := pyLower body
  if URGENCY_KEYWORDS.any (fun kw =>
      pyContains subject_lower kw || pyContains body_lower kw) then
    "high".data
  else
    let sender_lower := pyLower sender
    if vip_senders.any (fun vip => pyLower vip = sender_lower) then
      "high".data
    else if NEWSLETTER_PATTERNS.any (fun pat => pyContains sender_lower pat) then
      "low".data
    else
      "normal".data

/-- `src/gmail_sender.py check_send_limit`: the per-day counter file is
modelled as `Option Int` (`none` = file absent). With the file absent the
source returns `True`; otherwise it compares the stored count with the
limit. -/
def check_send_limit (send_count : Option Int) (limit : Int) : Bool :=
  match send_count with
  | none => true
  | some c => c < limit

/-- `src/gmail_sender.py increment_send_count`: read the current count
(0 when the file is absent), add one, write it back. -/
def increment_send_count (send_count : Option Int) : Int :=
  (send_count.getD 0) + 1

/-- One entry of the daily JSON log written by `src/utils.py log_action`. -/
structure LogEntry where
  timestamp : Str
  actor : Str
  action : Str
  source : Str
  result : Str
deriving DecidableEq

/-- `src/utils.py log_action`: append one structured entry. -/
def log_action (logs : List LogEntry) (now actor action source result : Str) :
    List LogEntry :=
  logs ++ [⟨now, actor, action, source, result⟩]

/-- The vault as the orchestrator sees it.  Each folder is an association
list from file name to file content; `send_count` models the per-day counter
file (`none` = absent); `sent` records the outbound Gmail calls
(gmail_id, to, body); `memory` models `Agent_Memory.md` (`none` = absent). -/
structure OrchState where
  needs_action : List (Str × Str)
  pending_approval : List (Str × Str)
  approved : List (Str × Str)
  rejected : List (Str × Str)
  done : List (Str × Str)
  quarantine : List (Str × Str)
  logs : List LogEntry
  send_count : Option Int
  sent : List (Str × Str × Str)
  memory : Option Str
deriving DecidableEq

/-- Write a file into a folder, silently overwriting an existing file of the
same name (`Path.write_text` / `shutil.move` onto an existing destination). -/
def folderInsert (f : List (Str × Str)) (name content : Str) : List (Str × Str) :=
  f.filter (fun p => p.1 ≠ name) ++ [(name, content)]

/-- Delete a file from a folder (`Path.unlink` / the source of a move). -/
def folderRemove (f : List (Str × Str)) (name : Str) : List (Str × Str) :=
  f.filter (fun p => p.1 ≠ name)

/-- Read a file from a folder. -/
def folderGet (f : List (Str × Str)) (name : Str) : Option Str :=
  (f.find? (fun p => p.1 = name)).map (·.2)

/-- A file name matched by `glob("*.md")`: ends in `.md` and is not a
hidden (dot) file. -/
def isMdName (n : Str) : Bool :=
  pyEndsWith n ".md".data && ¬ pyStartsWith n ".".data

/-- `src/orchestrator.py Orchestrator.get_pending_actions`:
`sorted(self.needs_action.glob("*.md"))` — the `.md` files of
`Needs_Action`, in ascending filename order. -/
def get_pending_actions (st : OrchState) : List Str :=
  pySorted ((st.needs_action.map (·.1)).filter isMdName)

/-- Python `"\n".join(lines)`. -/
def joinLines (ls : List Str) : Str := (ls.intersperse "\n".data).flatten

/-- `pathlib.Path.stem`: the file name minus its final suffix (a final
suffix needs a dot that is neither the first nor the last character). -/
def pyStem (name : Str) : Str :=
  match pyFind name.reverse ".".data with
  | none => name
  | some i =>
    if i = 0 then name
    else
      let cut := name.length - 1 - i
      if cut = 0 then name else pySlice name 0 cut

/-- `src/orchestrator.py Orchestrator.process_action`, lines 50–62: the
frontmatter lines of the plan — `source`, `created`, `status`, and, when the
assistant response contains the BEGIN REPLY marker, `action: reply`,
`gmail_id` and `to` copied from the source artifact's header (`to` from its
`from` field), and the source subject wrapped in quotes with a `Re:` prefix
added when not already present. -/
def build_plan_frontmatter (name now : Str) (metadata : List (Str × Str))
    (claude_response : Str) : List Str :=
  let base := ["source: ".data ++ name,
               "created: ".data ++ now,
               "status: pending_approval".data]
  if pyContains claude_response beginMarker then
    let subject0 := dictGetD metadata "subject".data []
    let subject :=
      if ¬ pyStartsWith subject0 "Re:".data then "Re: ".data ++ subject0
      else subject0
    base ++ ["action: reply".data,
             "gmail_id: ".data ++ dictGetD metadata "gmail_id".data [],
             "to: ".data ++ dictGetD metadata "from".data [],
             "subject: \"".data ++ subject ++ "\"".data]
  else base

/-- `src/orchestrator.py Orchestrator.process_action`, lines 64–72: the full
text of the plan artifact — frontmatter block, `# Plan:` heading from the
source artifact's stem, then the assistant response. -/
def render_plan (name content claude_response now : Str) : Str :=
  "---\n".data ++
  joinLines (build_plan_frontmatter name now (parse_frontmatter content)
    claude_response) ++
  "\n---\n\n# Plan: ".data ++ pyStem name ++ "\n\n".data ++ claude_response ++
  "\n".data

/-- `src/orchestrator.py Orchestrator.process_action`: read the artifact,
ask the assistant (its response is the `claude_response` parameter), derive
the plan name by replacing `email-` with `plan-`, write the plan (header plus
`# Plan:` body) into `Pending_Approval`, delete the source artifact, and log
`plan_created`.  Returns the new state and the plan file name. -/
def process_action (st : OrchState) (name content claude_response now : Str) :
    OrchState × Str :=
  let plan_name := pyReplace name "email-".data "plan-".data
  let plan_content := render_plan name content claude_response now
  let st' := { st with
    pending_approval := folderInsert st.pending_approval plan_name plan_content
    needs_action := folderRemove st.needs_action name
    logs := log_action st.logs now "orchestrator".data "plan_created".data name
      ("pending_approval:".data ++ plan_name) }
  (st', plan_name)

/-- Where `execute_approved` left the artifact: still in `Approved`, or
moved to `Done`. -/
inductive ExecResult where
  | stayedApproved (name : Str)
  | movedDone (name : Str)
deriving DecidableEq

/-- `src/orchestrator.py Orchestrator.execute_approved`, lines 139–149: move
the artifact from `Approved` to `Done` and log `executed`. -/
def finish_done (now : Str) (st : OrchState) (name content : Str) :
    OrchState × ExecResult :=
  ({ st with
      approved := folderRemove st.approved name
      done := folderInsert st.done name content
      logs := log_action st.logs now "orchestrator".data "executed".data name
        "moved_to_done".data },
   ExecResult.movedDone name)

/-- `src/orchestrator.py Orchestrator.execute_approved`: dispatch on the
`action` header.  For `reply`: the daily-send-limit gate returns the file
unchanged (only a logger warning, no log entry); a missing reply block logs
`reply_failed` and moves the file to `Done`; otherwise the reply is sent —
the external Gmail call's outcome is the `sendOk` parameter, and a missing
`gmail_id`/`to` key (a `KeyError` inside the `try`) lands in the same
`except` branch — success increments the counter, logs `email_sent`, and
falls through to the move to `Done`; failure logs `send_failed` and leaves
the file in `Approved`.  Without an `action: reply` header the file is moved
straight to `Done`. -/
def execute_approved (daily_send_limit : Int) (sendOk : Bool) (now : Str)
    (st : OrchState) (name content : Str) : OrchState × ExecResult :=
  let metadata := parse_frontmatter content
  if dictGet metadata "action".data = some "reply".data then
    if ¬ check_send_limit st.send_count daily_send_limit then
      (st, ExecResult.stayedApproved name)
    else
      match extract_reply_block content with
      | none =>
        ({ st with
            approved := folderRemove st.approved name
            done := folderInsert st.done name content
            logs := log_action st.logs now "orchestrator".data "reply_failed".data
              name "missing_reply_block".data },
         ExecResult.movedDone name)
      | some reply_body =>
        match dictGet metadata "gmail_id".data, dictGet metadata "to".data with
        | some gmail_id, some to_addr =>
          if sendOk then
            let st1 := { st with
              sent := st.sent ++ [(gmail_id, to_addr, reply_body)]
              send_count := some (increment_send_count st.send_count)
              logs := log_action st.logs now "orchestrator".data "email_sent".data
                name ("reply_to:".data ++ to_addr) }
            finish_done now st1 name content
          else
            ({ st with
                logs := log_action st.logs now "orchestrator".data "send_failed".data
                  name "send_error".data },
             ExecResult.stayedApproved name)
        | _, _ =>
          ({ st with
              logs := log_action st.logs now "orchestrator".data "send_failed".data
                name "key_error".data },
           ExecResult.stayedApproved name)
  else
    finish_done now st name content

/-- The capability record returned by
`src/secrets_isolation.py get_zone_capabilities`. -/
structure ZoneCapabilities where
  read_email : Bool
  draft_plans : Bool
  send_email : Bool
  execute_actions : Bool
  social_media_post : Bool
  odoo_operations : Bool
  approve_reject : Bool
deriving DecidableEq

/-- `src/secrets_isolation.py get_zone_capabilities`: the cloud zone may
only read email and draft plans; every other zone string takes the `local`
branch and gets all capabilities. -/
def get_zone_capabilities (work_zone : Str) : ZoneCapabilities :=
  if work_zone = "cloud".data then
    ⟨true, true, false, false, false, false, false⟩
  else
    ⟨true, true, true, true, true, true, true⟩

/-- Modelled from the spec: the `work_zone`-aware revision of
`Orchestrator.execute_approved` is not in `src` — the `Orchestrator` there
takes no `work_zone` argument, while its callers (`main.py` passes
`work_zone=cfg.work_zone`) and its tests
(`test_cloud_zone_blocks_execution`) require one.  Spec §4.G.2: "Zone gate:
if zone ≠ Local, this operation is a no-op returning the input unchanged",
gated on the `execute_actions` capability of
`get_zone_capabilities` (spec §4.I), with the local zone executing as
`execute_approved` does. -/
def execute_approved_zoned (work_zone : Str) (daily_send_limit : Int)
    (sendOk : Bool) (now : Str) (st : OrchState) (name content : Str) :
    OrchState × ExecResult :=
  if (get_zone_capabilities work_zone).execute_actions then
    execute_approved daily_send_limit sendOk now st name content
  else
    (st, ExecResult.stayedApproved name)

/-- `setup_vault.py DEFAULT_AGENT_MEMORY`: the documented header the Memory
file is seeded with. -/
def DEFAULT_AGENT_MEMORY : Str :=
  ("# Agent Memory\n\nLearnings from past decisions. This file is read by " ++
   "Claude alongside the Company Handbook when generating plans.\n\n" ++
   "## Patterns\n<!-- New learnings are appended here automatically -->\n").data

/-- Modelled from the spec: `Orchestrator.review_rejected` is not in `src` —
only its callers (`main.py`, `src/scheduler.py`) and its tests
(`test_orchestrator.py`) are.  Spec §4.G.3: invoke the assistant for one
sentence of learning (its output is the `assistant_output` parameter);
append that sentence, bullet-prefixed and UTC-timestamped, to the Memory
file, creating it with the documented header if absent; on empty assistant
output the memory update is a no-op; in every case move the artifact to
`Done` and log `rejection_reviewed`. -/
def review_rejected (st : OrchState) (name content assistant_output now : Str) :
    OrchState :=
  let st1 :=
    if assistant_output = [] then st
    else
      let mem0 := st.memory.getD DEFAULT_AGENT_MEMORY
      { st with
          memory := some (mem0 ++ "\n- [".data ++ now ++ "] ".data ++
            assistant_output) }
  { st1 with
      rejected := folderRemove st1.rejected name
      done := folderInsert st1.done name content
      logs := log_action st1.logs now "orchestrator".data
        "rejection_reviewed".data name "moved_to_done".data }

/-- Parse a run of decimal digits into its value (`none` when empty or
non-digit). -/
def parseDigitsVal (s : Str) : Option Nat :=
  if s ≠ [] ∧ s.all Char.isDigit then
    some (s.foldl (fun a c => a * 10 + (c.toNat - 48)) 0)
  else none

/-- Take exactly `n` leading digits, returning their value and the rest. -/
def takeFixedDigits (s : Str) (n : Nat) : Option (Nat × Str) :=
  let pre := s.take n
  if pre.length = n then (parseDigitsVal pre).map (fun v => (v, s.drop n))
  else none

/-- Consume one expected character. -/
def expectChar (s : Str) (c : Char) : Option Str :=
  match s with
  | x :: t => if x = c then some t else none
  | [] => none

/-- Gregorian leap year. -/
def isLeapYear (y : Nat) : Bool :=
  (y % 4 = 0 && y % 100 ≠ 0) || y % 400 = 0

/-- Number of leap years in `[1, y)`. -/
def leapCountBefore (y : Nat) : Nat :=
  (y - 1) / 4 - (y - 1) / 100 + (y - 1) / 400

/-- Days in the given month of the given year. -/
def daysInMonth (y m : Nat) : Nat :=
  if m = 2 then (if isLeapYear y then 29 else 28)
  else if m = 4 ∨ m = 6 ∨ m = 9 ∨ m = 11 then 30
  else 31

/-- Days in the months strictly before month `m` of year `y`. -/
def daysBeforeMonth (y m : Nat) : Nat :=
  (List.range (m - 1)).foldl (fun a i => a + daysInMonth y (i + 1)) 0

/-- Days from 1970-01-01 to the given civil date (which may precede it). -/
def epochDays (y m d : Nat) : Int :=
  365 * ((y : Int) - 1970) + ((leapCountBefore y : Int) - leapCountBefore 1970) +
    daysBeforeMonth y m + ((d : Int) - 1)

/-- Parse the fractional-second part `.ffffff` (1 to 6 digits), returning
microseconds and the rest; no fraction consumes nothing. -/
def parseFraction (s : Str) : Option (Nat × Str) :=
  match s with
  | '.' :: rest =>
    let digs := rest.takeWhile Char.isDigit
    if 1 ≤ digs.length ∧ digs.length ≤ 6 then
      (parseDigitsVal digs).map (fun v =>
        (v * 10 ^ (6 - digs.length), rest.drop digs.length))
    else none
  | _ => some (0, s)

/-- Parse the UTC-offset tail: `Z`, or `±HH:MM`; the whole input must be
consumed.  Returns the offset in seconds. -/
def parseOffset (s : Str) : Option Int :=
  match s with
  | ['Z'] => some 0
  | c :: rest =>
    if c = '+' ∨ c = '-' then do
      let (oh, r1) ← takeFixedDigits rest 2
      let r2 ← expectChar r1 ':'
      let (om, r3) ← takeFixedDigits r2 2
      if r3 = [] ∧ oh < 24 ∧ om < 60 then
        let secs : Int := 3600 * oh + 60 * om
        some (if c = '-' then -secs else secs)
      else none
    else none
  | [] => none

/-- `datetime.fromisoformat`, modelled on the offset-carrying ISO strings
this pipeline writes (`datetime.now(timezone.utc).isoformat()`, i.e.
`YYYY-MM-DD` `T`/space `HH:MM:SS[.ffffff]` `+HH:MM`/`Z`): the result is
microseconds since the epoch.  Malformed strings are `none` (a `ValueError`
in the source).  Strings without an offset produce a naive `datetime` whose
later subtraction from an aware `now` raises in the source; they are outside
the embedded domain and also map to `none`. -/
def pyFromIsoformat (s : Str) : Option Int := do
  let (y, r1) ← takeFixedDigits s 4
  let r2 ← expectChar r1 '-'
  let (mo, r3) ← takeFixedDigits r2 2
  let r4 ← expectChar r3 '-'
  let (d, r5) ← takeFixedDigits r4 2
  if ¬ (1 ≤ y ∧ 1 ≤ mo ∧ mo ≤ 12 ∧ 1 ≤ d ∧ d ≤ daysInMonth y mo) then
    none
  else
    match r5 with
    | [] => none
    | sep :: r6 =>
      if ¬ (sep = 'T' ∨ sep = ' ') then none
      else do
        let (hh, r7) ← takeFixedDigits r6 2
        let r8 ← expectChar r7 ':'
        let (mi, r9) ← takeFixedDigits r8 2
        let r10 ← expectChar r9 ':'
        let (ss, r11) ← takeFixedDigits r10 2
        if ¬ (hh < 24 ∧ mi < 60 ∧ ss < 60) then none
        else do
          let (us, r12) ← parseFraction r11
          let off ← parseOffset r12
          let secs : Int :=
            86400 * epochDays y mo d + 3600 * hh + 60 * mi + ss - off
          some (1000000 * secs + us)

/-- `src/retry.py _extract_quarantine_time`: the first line whose stripped
form starts with `quarantine_time:` decides — its text after the first colon
is stripped and parsed, an unparseable value yields `None`. -/
def extract_quarantine_time (content : Str) : Option Int :=
  match (pySplitLines content).find?
      (fun l => pyStartsWith (pyStrip l) "quarantine_time:".data) with
  | none => none
  | some line =>
    match pySplitN ":".data 1 line with
    | [_, v] => pyFromIsoformat (pyStrip v)
    | _ => none

/-- `src/retry.py _strip_quarantine_metadata`: when the content opens with
`---`, drop the `quarantine_error:`/`quarantine_time:` lines from the
stripped header block and reassemble delimiter + cleaned block + delimiter +
body.  (A header without a closing `---` raises `ValueError` in the source;
the files `queue_failed_action` quarantines always carry one, and the model
returns the content unchanged there.) -/
def strip_quarantine_metadata (content : Str) : Str :=
  if ¬ pyStartsWith content "---".data then content
  else
    match pyFind (content.drop 3) "---".data with
    | none => content
    | some i =>
      let endIdx := i + 3
      let fmLines := pySplitLines (pyStrip (pySlice content 3 endIdx))
      let body := content.drop (endIdx + 3)
      let cleaned := fmLines.filter (fun l =>
        ¬ pyStartsWith (pyStrip l) "quarantine_error:".data ∧
        ¬ pyStartsWith (pyStrip l) "quarantine_time:".data)
      "---\n".data ++ joinLines cleaned ++ "\n---".data ++ body

/-- The per-item test of `src/retry.py process_quarantine`: restore when the
quarantine time is missing or unparseable, or when the age
`(now - quarantine_time).total_seconds()` is not below `min_age_seconds`
(times in microseconds, so the float comparison `age < min_age` is the exact
`nowUs - t < min_age · 10^6`). -/
def shouldRestore (nowUs min_age_seconds : Int) (content : Str) : Bool :=
  match extract_quarantine_time content with
  | none => true
  | some t => ¬ (nowUs - t < min_age_seconds * 1000000)

/-- The loop body of `process_quarantine` over the pre-computed sorted item
list: restored items are rewritten (stripped) into `Needs_Action`, removed
from `Quarantine`, and appended to the returned list, in order. -/
def pqGo (nowUs min_age_seconds : Int) :
    List (Str × Str) → OrchState → OrchState × List Str
  | [], st => (st, [])
  | (name, content) :: rest, st =>
    if shouldRestore nowUs min_age_seconds content then
      let clean := strip_quarantine_metadata content
      let st' := { st with
        needs_action := folderInsert st.needs_action name clean
        quarantine := folderRemove st.quarantine name }
      let r := pqGo nowUs min_age_seconds rest st'
      (r.1, name :: r.2)
    else
      pqGo nowUs min_age_seconds rest st

/-- The materialized `sorted(quarantine_dir.glob("*.md"))` work list: the
`.md` entries of `Quarantine` with their contents, in ascending name
order. -/
def quarantineWorkList (st : OrchState) : List (Str × Str) :=
  (pySorted ((st.quarantine.map (·.1)).filter isMdName)).filterMap
    (fun n => (folderGet st.quarantine n).map (fun c => (n, c)))

/-- `src/retry.py process_quarantine`: sweep the quarantine folder (sorted
`.md` entries), restoring each sufficiently old or timestamp-less item to
`Needs_Action` with its quarantine header fields stripped; returns the new
state and the restored names. -/
def process_quarantine (nowUs min_age_seconds : Int) (st : OrchState) :
    OrchState × List Str :=
  pqGo nowUs min_age_seconds (quarantineWorkList st) st

/-- A header value in the plain (unquoted) form this pipeline writes: no
surrounding whitespace, not quote-opened, and without the `: ` sequence that
is a YAML scanner error inside a plain scalar. -/
def plainValueOk (v : Str) : Bool :=
  decide (pyStrip v = v) && !(pyStartsWith v "\"".data) &&
    !(pyContains v ": ".data)

/-- Rank of a `priority` header value following the spec's words: high
before normal before low, anything other than `high`/`low` treated as
`normal`.  (Spec-side definition, for comparison with the source's
`get_pending_actions`.) -/
def priorityRankSpec (p : Str) : Nat :=
  if p = "high".data then 0 else if p = "low".data then 2 else 1

/-- The priority rank of a `Needs_Action` artifact, read from its
`priority` frontmatter field (missing field → `normal`). -/
def pendingKeySpec (st : OrchState) (n : Str) : Nat :=
  priorityRankSpec (dictGetD
    (parse_frontmatter ((folderGet st.needs_action n).getD [])) "priority".data
    "normal".data)

/-- Insertion into a list ordered by (priority rank, name). -/
def specOrderInsert (st : OrchState) (x : Str) : List Str → List Str
  | [] => [x]
  | y :: ys =>
    if pendingKeySpec st x < pendingKeySpec st y ∨
        (pendingKeySpec st x = pendingKeySpec st y ∧ pyStrLt x y) then
      x :: y :: ys
    else y :: specOrderInsert st x ys

/-- The listing the spec prescribes for `get_pending_actions`: the `.md`
files of `Needs_Action` **priority-sorted** (high → normal → low), ties
broken by filename ascending.  (Spec-side definition, to compare with the
source's filename-only sort.) -/
def get_pending_actions_spec (st : OrchState) : List Str :=
  ((st.needs_action.map (·.1)).filter isMdName).foldr (specOrderInsert st) []


/-! ### Concrete vault states used by the per-claim evaluations -/

/-- An empty vault state. -/
def emptyState : OrchState :=
  { needs_action := [], pending_approval := [], approved := [], rejected := []
    done := [], quarantine := [], logs := [], send_count := none, sent := []
    memory := none }

/-- A no-action plan sitting in `Approved` (for the zone-gate witness). -/
def c1_state : OrchState :=
  { emptyState with
      approved := [("plan-cloud-block.md".data,
        "---\nstatus: approved\n---\n\n# Plan\nDo something.\n".data)] }

/-- An approved reply plan with a valid reply block. -/
def c2_plan : Str :=
  ("---\naction: reply\ngmail_id: msg1\nto: a@b.com\nsubject: \"Re: X\"\n---\n\n# Plan\n\n---BEGIN REPLY---\nHi\n---END REPLY---\n").data

/-- Vault with `c2_plan` in `Approved` and no send-counter file. -/
def c2_state : OrchState :=
  { emptyState with approved := [("plan-1.md".data, c2_plan)] }

/-- `Needs_Action` holding three artifacts with priorities low, normal and
high. -/
def c3_state : OrchState :=
  { emptyState with
      needs_action :=
        [("email-low.md".data, "---\npriority: low\n---\n# Low priority email".data),
         ("email-normal.md".data,
          "---\npriority: normal\n---\n# Normal priority email".data),
         ("email-high.md".data,
          "---\npriority: high\n---\n# High priority email".data)] }

/-- A timestamp in the format `datetime.now(timezone.utc).isoformat()`
produces (second precision). -/
def c4_now : Str := "2026-02-16T10:00:00+00:00".data

/-- A source email artifact as the Gmail watcher writes it. -/
def c4_src : Str :=
  ("---\ntype: email\nfrom: bob@test.com\nsubject: Hello\ndate: Mon\npriority: normal\ngmail_id: msg9\n---\n\n# New Email: Hello\n").data

/-- An assistant response containing a reply block. -/
def c4_resp : Str :=
  ("## Analysis\nok\n\n---BEGIN REPLY---\nHi!\n---END REPLY---\n").data

/-- Vault with the `c4_src` artifact in `Needs_Action`. -/
def c4_state : OrchState :=
  { emptyState with needs_action := [("email-c4.md".data, c4_src)] }

/-- An approved reply plan without any reply markers. -/
def c5_plan : Str :=
  ("---\naction: reply\ngmail_id: m2\nto: b@c.com\nsubject: \"Re: Y\"\n---\n\n# Plan\nNo reply block!\n").data

/-- Vault with `c5_plan` in `Approved` and an exhausted day counter for
limit 0 (the counter file exists with count 0). -/
def c5_state : OrchState :=
  { emptyState with
      approved := [("plan-bad.md".data, c5_plan)], send_count := some 0 }

/-- Vault with `c5_plan` in `Approved` and no counter file (quota free). -/
def c5_ok_state : OrchState :=
  { emptyState with approved := [("plan-bad.md".data, c5_plan)] }

/-- A rejected reply plan. -/
def c6_plan : Str :=
  ("---\nsource: email-test.md\nstatus: pending_approval\naction: reply\n---\n\n# Plan\n\n---BEGIN REPLY---\nDear Sir/Madam\n---END REPLY---\n").data

/-- Vault with `c6_plan` in `Rejected`. -/
def c6_state : OrchState :=
  { emptyState with rejected := [("plan-rejected-test.md".data, c6_plan)] }

/-- A quarantined artifact whose `quarantine_time` is 2026-01-01T00:00:00
UTC (epoch microseconds 1767225600000000). -/
def c7_item : Str :=
  ("---\ntype: email\nquarantine_error: API timeout\nquarantine_time: 2026-01-01T00:00:00+00:00\n---\n\n# Email A\n").data

/-- Quarantine holding only `c7_item`. -/
def c7_state : OrchState :=
  { emptyState with quarantine := [("email-a.md".data, c7_item)] }

/-- A quarantined artifact 30 seconds old at the witness sweep time. -/
def c7_young : Str :=
  ("---\ntype: email\nquarantine_error: flaky\nquarantine_time: 2026-01-01T00:04:30+00:00\n---\n\n# Email B\n").data

/-- Quarantine holding one item past `min_age` and one younger item. -/
def c7w_state : OrchState :=
  { emptyState with
      quarantine := [("email-a.md".data, c7_item), ("email-b.md".data, c7_young)] }

/-- An approved reply plan whose END marker precedes its BEGIN marker. -/
def c10_reversed : Str :=
  ("---\naction: reply\ngmail_id: m1\nto: a@b.com\n---\n\n---END REPLY---\nstray\n---BEGIN REPLY---\n").data

/-- Vault with `c10_reversed` in `Approved`. -/
def c10_state : OrchState :=
  { emptyState with approved := [("plan-rev.md".data, c10_reversed)] }

end DigitalFTE

namespace DigitalFTE

/-! ### General lemmas about the embedded Python string and store operations -/

theorem pyFind_eq_none_iff (hay needle : Str) :
    pyFind hay needle = none ↔ pyContains hay needle = false := by
  induction hay with
  | nil =>
    by_cases h : needle.isPrefixOf ([] : Str) <;> simp [pyFind, pyContains, h]
  | cons c t ih =>
    by_cases h : needle.isPrefixOf (c :: t) <;>
      simp [pyFind, pyContains, h, ih]

theorem pyReplaceGo_of_not_contains (o : Char) (os new : Str) (fuel : Nat)
    (s : Str) (h : pyContains s (o :: os) = false) :
    pyReplaceGo o os new fuel s = s := by
  induction fuel generalizing s with
  | zero => cases s <;> simp [pyReplaceGo]
  | succ n ih =>
    cases s with
    | nil => simp [pyReplaceGo]
    | cons c t =>
      rw [pyContains] at h
      by_cases hp : (o :: os).isPrefixOf (c :: t)
      · simp [hp] at h
      · simp [hp] at h
        simp [pyReplaceGo, hp, ih t h]

theorem pyReplace_of_not_contains (s old new : Str)
    (h : pyContains s old = false) (ho : old ≠ []) :
    pyReplace s old new = s := by
  match old with
  | [] => exact absurd rfl ho
  | o :: os => exact pyReplaceGo_of_not_contains o os new s.length s h

theorem folderGet_folderInsert_self (f : List (Str × Str)) (n c : Str) :
    folderGet (folderInsert f n c) n = some c := by
  unfold folderGet folderInsert
  rw [List.find?_append]
  have : (f.filter (fun p => p.1 ≠ n)).find? (fun p => p.1 = n) = none := by
    rw [List.find?_eq_none]
    intro x hx
    have := List.of_mem_filter hx
    simpa using this
  simp [this]

theorem folderGet_cons (x : Str × Str) (xs : List (Str × Str)) (n : Str) :
    folderGet (x :: xs) n = if x.1 = n then some x.2 else folderGet xs n := by
  by_cases h : x.1 = n <;> simp [folderGet, List.find?_cons, h]

theorem folderGet_folderInsert_ne (f : List (Str × Str)) (n n' c : Str)
    (h : n' ≠ n) :
    folderGet (folderInsert f n c) n' = folderGet f n' := by
  induction f with
  | nil =>
    simp [folderInsert, folderGet, List.find?, Ne.symm h]
  | cons x xs ih =>
    rw [folderInsert, List.filter_cons]
    by_cases hx : x.1 = n
    · have hd : (decide (x.1 ≠ n)) = false := by simp [hx]
      rw [hd, if_neg (by simp)]
      rw [folderGet_cons x xs n', if_neg (by rw [hx]; exact Ne.symm h)]
      exact ih
    · have hd : (decide (x.1 ≠ n)) = true := by simp [hx]
      rw [hd, if_pos rfl]
      simp only [List.cons_append, folderGet_cons]
      by_cases hx' : x.1 = n'
      · simp only [hx', if_true]
      · simp only [hx', if_false]
        exact ih

theorem folderGet_folderRemove_ne (f : List (Str × Str)) (n n' : Str)
    (h : n' ≠ n) : folderGet (folderRemove f n) n' = folderGet f n' := by
  induction f with
  | nil => rfl
  | cons x xs ih =>
    rw [folderRemove, List.filter_cons]
    by_cases hx : x.1 = n
    · have hd : (decide (x.1 ≠ n)) = false := by simp [hx]
      rw [hd, if_neg (by simp)]
      rw [folderGet_cons x xs n', if_neg (by rw [hx]; exact Ne.symm h)]
      exact ih
    · have hd : (decide (x.1 ≠ n)) = true := by simp [hx]
      rw [hd, if_pos rfl]
      rw [folderGet_cons, folderGet_cons]
      by_cases hx' : x.1 = n'
      · simp only [hx', if_true]
      · simp only [hx', if_false]
        exact ih

theorem shouldRestore_eq (nowUs m : Int) (c : Str) :
    shouldRestore nowUs m c =
      (match extract_quarantine_time c with
       | none => true
       | some t => decide (m * 1000000 ≤ nowUs - t)) := by
  unfold shouldRestore
  cases extract_quarantine_time c with
  | none => rfl
  | some t => simp [Int.not_lt]

theorem pqGo_moved (nowUs m : Int) (items : List (Str × Str)) (st : OrchState) :
    (pqGo nowUs m items st).2 =
      (items.filter (fun p => shouldRestore nowUs m p.2)).map (·.1) := by
  induction items generalizing st with
  | nil => rfl
  | cons q rest ih =>
    obtain ⟨qn, qc⟩ := q
    by_cases hq : shouldRestore nowUs m qc
    · simp [pqGo, hq, List.filter_cons, ih]
    · simp [pqGo, hq, List.filter_cons, ih]

theorem pqGo_preserve (nowUs m : Int) (x : Str) (items : List (Str × Str))
    (st : OrchState)
    (hx : x ∉ (items.filter (fun p => shouldRestore nowUs m p.2)).map (·.1)) :
    folderGet (pqGo nowUs m items st).1.needs_action x =
      folderGet st.needs_action x ∧
    folderGet (pqGo nowUs m items st).1.quarantine x =
      folderGet st.quarantine x := by
  induction items generalizing st with
  | nil => exact ⟨rfl, rfl⟩
  | cons q rest ih =>
    obtain ⟨qn, qc⟩ := q
    by_cases hq : shouldRestore nowUs m qc
    · rw [List.filter_cons] at hx
      simp only [hq, if_pos, List.map_cons, List.mem_cons] at hx
      push_neg at hx
      obtain ⟨hxq, hxrest⟩ := hx
      have hrec := ih ({ st with
        needs_action := folderInsert st.needs_action qn (strip_quarantine_metadata qc)
        quarantine := folderRemove st.quarantine qn }) hxrest
      rw [pqGo]
      simp only [hq, if_pos]
      refine ⟨?_, ?_⟩
      · rw [hrec.1]
        exact folderGet_folderInsert_ne _ _ _ _ hxq
      · rw [hrec.2]
        exact folderGet_folderRemove_ne _ _ _ hxq
    · rw [List.filter_cons] at hx
      simp only [hq, if_neg, Bool.false_eq_true, List.map_cons] at hx
      rw [pqGo]
      simp only [hq, Bool.false_eq_true, if_neg, if_false]
      exact ih st hx

theorem pqGo_needs (nowUs m : Int) (items : List (Str × Str)) (st : OrchState)
    (hnd : (items.map (·.1)).Nodup) (p : Str × Str) (hp : p ∈ items)
    (hres : shouldRestore nowUs m p.2 = true) :
    folderGet (pqGo nowUs m items st).1.needs_action p.1 =
      some (strip_quarantine_metadata p.2) := by
  induction items generalizing st with
  | nil => cases hp
  | cons q rest ih =>
    obtain ⟨qn, qc⟩ := q
    rw [List.map_cons, List.nodup_cons] at hnd
    obtain ⟨hqn, hndr⟩ := hnd
    rcases List.mem_cons.mp hp with hpq | hpr
    · subst hpq
      rw [pqGo]
      simp only [hres, if_pos]
      have hnotin : qn ∉ (rest.filter (fun r => shouldRestore nowUs m r.2)).map (·.1) := by
        intro hmem
        apply hqn
        obtain ⟨r, hr, hr1⟩ := List.mem_map.mp hmem
        exact List.mem_map.mpr ⟨r, List.mem_of_mem_filter hr, hr1⟩
      have hpres := pqGo_preserve nowUs m qn rest ({ st with
        needs_action := folderInsert st.needs_action qn (strip_quarantine_metadata qc)
        quarantine := folderRemove st.quarantine qn }) hnotin
      rw [hpres.1]
      exact folderGet_folderInsert_self _ _ _
    · by_cases hq : shouldRestore nowUs m qc
      · rw [pqGo]
        simp only [hq, if_pos]
        exact ih ({ st with
          needs_action := folderInsert st.needs_action qn (strip_quarantine_metadata qc)
          quarantine := folderRemove st.quarantine qn }) hndr hpr
      · rw [pqGo]
        simp only [hq, Bool.false_eq_true, if_false]
        exact ih st hndr hpr

theorem pqGo_noop (nowUs m : Int) (items : List (Str × Str)) (st : OrchState)
    (h : ∀ p ∈ items, shouldRestore nowUs m p.2 = false) :
    pqGo nowUs m items st = (st, []) := by
  induction items with
  | nil => rfl
  | cons q rest ih =>
    obtain ⟨qn, qc⟩ := q
    rw [pqGo]
    have hq := h (qn, qc) (List.mem_cons_self _ _)
    simp only [hq, Bool.false_eq_true, if_false]
    exact ih (fun p hp => h p (List.mem_cons_of_mem _ hp))

theorem pySplitLinesGo_newline (cur rest : Str) :
    pySplitLinesGo cur ('\n' :: rest) = cur.reverse :: pySplitLinesGo [] rest := by
  simp [pySplitLinesGo]

theorem pySplitLinesGo_other (cur : Str) (c : Char) (rest : Str)
    (h1 : c ≠ '\n') (h2 : c ≠ '\x0d') :
    pySplitLinesGo cur (c :: rest) = pySplitLinesGo (c :: cur) rest := by
  rw [pySplitLinesGo.eq_def]
  split
  · rename_i heq
    exact absurd heq (by simp)
  · simp_all
  · simp_all
  · simp_all
  · rename_i heq
    injection heq with hc hr
    subst hc
    subst hr
    rfl

theorem pySplitLinesGo_line (line : Str) (cur rest : Str)
    (h : ∀ c ∈ line, ¬ (c = '\n' ∨ c = '\x0d')) :
    pySplitLinesGo cur (line ++ '\n' :: rest) =
      (cur.reverse ++ line) :: pySplitLinesGo [] rest := by
  induction line generalizing cur with
  | nil => simp [pySplitLinesGo_newline]
  | cons c cs ih =>
    have hc := h c (List.mem_cons_self _ _)
    push_neg at hc
    rw [List.cons_append, pySplitLinesGo_other cur c _ hc.1 hc.2]
    rw [ih (c :: cur) (fun x hx => h x (List.mem_cons_of_mem _ hx))]
    simp

theorem joinLines_cons_cons (l l2 : Str) (t : List Str) :
    joinLines (l :: l2 :: t) = l ++ '\n' :: joinLines (l2 :: t) := by
  rw [joinLines, joinLines, List.intersperse_cons_cons]
  simp

theorem pySplitLines_joined (lines : List Str) (hne : lines ≠ [])
    (hchar : ∀ l ∈ lines, ∀ c ∈ l, ¬ (c = '\n' ∨ c = '\x0d')) :
    pySplitLinesGo [] (joinLines lines ++ ['\n']) = lines := by
  induction lines with
  | nil => exact absurd rfl hne
  | cons l t ih =>
    cases t with
    | nil =>
      have hj : joinLines [l] = l := by simp [joinLines]
      rw [hj]
      have : l ++ ['\n'] = l ++ '\n' :: [] := rfl
      rw [this, pySplitLinesGo_line l [] [] (hchar l (List.mem_cons_self _ _))]
      simp [pySplitLinesGo]
    | cons l2 t2 =>
      rw [joinLines_cons_cons]
      have : (l ++ '\n' :: joinLines (l2 :: t2)) ++ ['\n'] =
          l ++ '\n' :: (joinLines (l2 :: t2) ++ ['\n']) := by simp
      rw [this, pySplitLinesGo_line l [] _ (hchar l (List.mem_cons_self _ _))]
      rw [ih (by simp) (fun x hx => hchar x (List.mem_cons_of_mem _ hx))]
      simp

theorem contains_of_isPrefixOf_drop (s n : Str) (i : Nat)
    (h : n.isPrefixOf (s.drop i) = true) : pyContains s n = true := by
  induction s generalizing i with
  | nil =>
    rw [List.drop_nil] at h
    rw [pyContains, if_pos h]
  | cons c t ih =>
    cases i with
    | zero =>
      rw [List.drop_zero] at h
      rw [pyContains, if_pos h]
    | succ k =>
      rw [List.drop_succ_cons] at h
      rw [pyContains]
      by_cases hp : n.isPrefixOf (c :: t)
      · rw [if_pos hp]
      · rw [if_neg hp]
        exact ih k h

theorem pyFind_append_shift (a b sep : Str)
    (h : ∀ i, i < a.length → sep.isPrefixOf ((a ++ b).drop i) = false) :
    pyFind (a ++ b) sep = (pyFind b sep).map (· + a.length) := by
  induction a with
  | nil =>
    simp only [List.nil_append, List.length_nil]
    cases pyFind b sep <;> simp
  | cons c t ih =>
    have h0 := h 0 (by simp)
    rw [List.drop_zero, List.cons_append] at h0
    rw [List.cons_append, pyFind.eq_def]
    simp only [h0, Bool.false_eq_true, if_false]
    rw [ih (fun i hi => by
      have := h (i + 1) (by simpa using Nat.succ_lt_succ hi)
      rwa [List.cons_append, List.drop_succ_cons] at this)]
    cases pyFind b sep with
    | none => rfl
    | some k => simp [Nat.add_assoc]

theorem pyFind_append_marker (a b sep : Str) (hsep : sep.isPrefixOf b = true)
    (h : ∀ i, i < a.length → sep.isPrefixOf ((a ++ b).drop i) = false) :
    pyFind (a ++ b) sep = some a.length := by
  rw [pyFind_append_shift a b sep h, pyFind.eq_def, if_pos hsep]
  simp

theorem getLast?_drop (l : Str) (i : Nat) (h : i < l.length) :
    (l.drop i).getLast? = l.getLast? := by
  induction l generalizing i with
  | nil => simp at h
  | cons c t ih =>
    cases i with
    | zero => rfl
    | succ k =>
      rw [List.drop_succ_cons]
      rw [ih k (by simpa using h)]
      cases t with
      | nil => simp at h
      | cons d u => simp [List.getLast?_cons_cons]

theorem no_prefix_positions (a b sep : Str) (hA : pyContains a sep = false)
    (hlast : a.getLast? = some '\n') (hnl : '\n' ∉ sep) :
    ∀ i, i < a.length → sep.isPrefixOf ((a ++ b).drop i) = false := by
  intro i hi
  by_contra hcon
  rw [Bool.not_eq_false] at hcon
  by_cases hle : sep.length ≤ a.length - i
  · -- the occurrence fits inside a
    have hdrop : (a ++ b).drop i = a.drop i ++ b := by
      rw [List.drop_append_of_le_length (Nat.le_of_lt hi)]
    rw [hdrop] at hcon
    rw [List.isPrefixOf_iff_prefix] at hcon
    have hsepeq : sep = (a.drop i).take sep.length := by
      have := List.prefix_iff_eq_take.mp hcon
      rwa [List.take_append_of_le_length (by simpa using hle)] at this
    have hpre : sep.isPrefixOf (a.drop i) = true := by
      rw [List.isPrefixOf_iff_prefix, hsepeq]
      exact List.take_prefix _ _
    have := contains_of_isPrefixOf_drop a sep i hpre
    rw [hA] at this
    exact Bool.false_ne_true this
  · -- the occurrence would straddle past a's final newline
    push_neg at hle
    rw [List.isPrefixOf_iff_prefix] at hcon
    have hsepeq := List.prefix_iff_eq_take.mp hcon
    have hdrop : (a ++ b).drop i = a.drop i ++ b :=
      List.drop_append_of_le_length (Nat.le_of_lt hi)
    rw [hdrop, List.take_append_eq_append_take,
      List.take_of_length_le (show (a.drop i).length ≤ sep.length by
        rw [List.length_drop]; omega)] at hsepeq
    have hne0 : 0 < (a.drop i).length := by
      rw [List.length_drop]
      omega
    have hlastd : (a.drop i).getLast? = a.getLast? := getLast?_drop a i hi
    have hmem0 : '\n' ∈ a.drop i :=
      List.mem_of_mem_getLast? (by rw [hlastd]; exact hlast)
    have hmem : '\n' ∈ sep := by
      rw [hsepeq]
      exact List.mem_append_left _ hmem0
    exact hnl hmem

theorem pyFind_colon_append (k rest : Str) (hk : pyContains k ":".data = false) :
    pyFind (k ++ ':' :: rest) ":".data = some k.length := by
  induction k with
  | nil =>
    rw [List.nil_append, pyFind.eq_def]
    simp [List.isPrefixOf]
  | cons c t ih =>
    rw [pyContains] at hk
    by_cases hp : ":".data.isPrefixOf (c :: t)
    · rw [if_pos hp] at hk
      exact absurd hk (by simp)
    · rw [if_neg hp] at hk
      have hp2 : ":".data.isPrefixOf (c :: (t ++ ':' :: rest)) = false := by
        have hcc : (':' == c) = false := by
          by_contra hcc2
          rw [Bool.not_eq_false, beq_iff_eq] at hcc2
          exact hp (by simp [List.isPrefixOf]; exact hcc2)
        simp [List.isPrefixOf, hcc]
      rw [List.cons_append, pyFind.eq_def]
      simp only [hp2, Bool.false_eq_true, if_false]
      rw [ih hk]
      simp

theorem pySplitN_colon (k rest : Str) (hk : pyContains k ":".data = false) :
    pySplitN ":".data 1 (k ++ ':' :: rest) = [k, rest] := by
  have h1 : pySlice (k ++ ':' :: rest) 0 k.length = k := by
    rw [pySlice, List.drop_zero, Nat.sub_zero]
    exact List.take_left k (':' :: rest)
  have h2 : (k ++ ':' :: rest).drop (k.length + ":".data.length) = rest := by
    have e1 : k.length + ":".data.length = (k ++ [':']).length := by simp
    have e2 : k ++ ':' :: rest = (k ++ [':']) ++ rest := by simp
    rw [e1, e2]
    exact List.drop_left _ _
  rw [pySplitN, pyFind_colon_append k rest hk]
  show pySlice (k ++ ':' :: rest) 0 k.length ::
    pySplitN ":".data 0 ((k ++ ':' :: rest).drop (k.length + ":".data.length)) = [k, rest]
  rw [h1, h2]
  rfl

theorem pyStrip_cons_space (v : Str) : pyStrip (' ' :: v) = pyStrip v := by
  have h : (' ' :: v).dropWhile pyIsSpace = v.dropWhile pyIsSpace := by
    rw [List.dropWhile_cons, if_pos (by decide)]
  rw [pyStrip, pyStrip, h]

theorem dropWhile_append_singleton (x : Str) (c : Char) (hc : pyIsSpace c = false) :
    ∃ y, (x ++ [c]).dropWhile pyIsSpace = y ++ [c] := by
  induction x with
  | nil => exact ⟨[], by simp [List.dropWhile, hc]⟩
  | cons a as ih =>
    by_cases ha : pyIsSpace a
    · rw [List.cons_append, List.dropWhile_cons, if_pos ha]
      exact ih
    · exact ⟨a :: as, by rw [List.cons_append, List.dropWhile_cons, if_neg ha]⟩

theorem pyStrip_cons_of_not_space (c : Char) (t : Str) (hc : pyIsSpace c = false) :
    ∃ t', pyStrip (c :: t) = c :: t' := by
  rw [pyStrip]
  rw [List.dropWhile_cons, if_neg (by simp [hc])]
  rw [List.reverse_cons]
  obtain ⟨y, hy⟩ := dropWhile_append_singleton t.reverse c hc
  rw [hy]
  exact ⟨y.reverse, by simp⟩

theorem pyStrip_quoted (subj : Str) :
    pyStrip ('"' :: (subj ++ ['"'])) = '"' :: (subj ++ ['"']) := by
  rw [pyStrip]
  rw [List.dropWhile_cons, if_neg (by decide)]
  rw [List.reverse_cons]
  rw [show (subj ++ ['"']).reverse = '"' :: subj.reverse by simp]
  rw [List.cons_append, List.dropWhile_cons, if_neg (by decide)]
  simp

theorem yamlParseLine_plain (k v : Str) (ck : Char) (kt : Str)
    (hk : k = ck :: kt) (hck1 : pyIsSpace ck = false) (hck2 : ('#' == ck) = false)
    (hkc : pyContains k ":".data = false)
    (hvs : pyStrip v = v)
    (hvq : pyStartsWith v "\"".data = false)
    (hvc : pyContains v ": ".data = false) :
    yamlParseLine (k ++ ':' :: ' ' :: v) = some (some (pyStrip k, v)) := by
  subst hk
  obtain ⟨t', ht'⟩ := pyStrip_cons_of_not_space ck (kt ++ ':' :: ' ' :: v) hck1
  rw [yamlParseLine]
  rw [show (ck :: kt) ++ ':' :: ' ' :: v = ck :: (kt ++ ':' :: ' ' :: v) by simp]
  rw [ht']
  rw [if_neg (by simp)]
  rw [if_neg (by simp [pyStartsWith, List.isPrefixOf, hck2])]
  rw [show ck :: (kt ++ ':' :: ' ' :: v) = (ck :: kt) ++ ':' :: (' ' :: v) by simp]
  rw [pySplitN_colon (ck :: kt) (' ' :: v) hkc]
  show (let v' := pyStrip (' ' :: v)
    if pyStartsWith v' "\"".data then
      if 2 ≤ v'.length && v'.getLast? = some '"' then
        some (some (pyStrip (ck :: kt), (v'.drop 1).dropLast))
      else none
    else if pyContains v' ": ".data then none
    else some (some (pyStrip (ck :: kt), v'))) = some (some (pyStrip (ck :: kt), v))
  rw [pyStrip_cons_space, hvs]
  simp only [hvq, Bool.false_eq_true, if_false, hvc]

theorem yamlParseLine_quoted (k subj : Str) (ck : Char) (kt : Str)
    (hk : k = ck :: kt) (hck1 : pyIsSpace ck = false) (hck2 : ('#' == ck) = false)
    (hkc : pyContains k ":".data = false) :
    yamlParseLine (k ++ ':' :: ' ' :: '"' :: (subj ++ ['"'])) =
      some (some (pyStrip k, subj)) := by
  subst hk
  obtain ⟨t', ht'⟩ := pyStrip_cons_of_not_space ck
    (kt ++ ':' :: ' ' :: '"' :: (subj ++ ['"'])) hck1
  rw [yamlParseLine]
  rw [show (ck :: kt) ++ ':' :: ' ' :: '"' :: (subj ++ ['"']) =
    ck :: (kt ++ ':' :: ' ' :: '"' :: (subj ++ ['"'])) by simp]
  rw [ht']
  rw [if_neg (by simp)]
  rw [if_neg (by simp [pyStartsWith, List.isPrefixOf, hck2])]
  rw [show ck :: (kt ++ ':' :: ' ' :: '"' :: (subj ++ ['"'])) =
    (ck :: kt) ++ ':' :: (' ' :: '"' :: (subj ++ ['"'])) by simp]
  rw [pySplitN_colon (ck :: kt) (' ' :: '"' :: (subj ++ ['"'])) hkc]
  show (let v' := pyStrip (' ' :: '"' :: (subj ++ ['"']))
    if pyStartsWith v' "\"".data then
      if 2 ≤ v'.length && v'.getLast? = some '"' then
        some (some (pyStrip (ck :: kt), (v'.drop 1).dropLast))
      else none
    else if pyContains v' ": ".data then none
    else some (some (pyStrip (ck :: kt), v'))) =
    some (some (pyStrip (ck :: kt), subj))
  rw [pyStrip_cons_space, pyStrip_quoted]
  rw [if_pos (by simp [pyStartsWith, List.isPrefixOf])]
  rw [if_pos (by
    refine Bool.and_eq_true_iff.mpr ⟨?_, ?_⟩
    · simp only [List.length_cons, List.length_append, List.length_singleton,
        decide_eq_true_eq]
      omega
    · rw [show '"' :: (subj ++ ['"']) = ('"' :: subj) ++ ['"'] by simp]
      rw [List.getLast?_concat]
      simp)]
  rw [show ('"' :: (subj ++ ['"'])).drop 1 = subj ++ ['"'] from rfl]
  rw [List.dropLast_concat]

theorem yamlParseMap_skip_nil (lines : List Str) :
    yamlParseMap ([] :: lines) = yamlParseMap lines := by
  rw [yamlParseMap]
  have h0 : yamlParseLine [] = some none := rfl
  rw [h0]
  cases hm : yamlParseMap lines <;> rfl

theorem pySplitN2_render (lines : List Str) (tail : Str)
    (hA : pyContains ('\n' :: (joinLines lines ++ ['\n'])) "---".data = false) :
    pySplitN "---".data 2
      ("---".data ++ (('\n' :: (joinLines lines ++ ['\n'])) ++ ("---".data ++ tail))) =
      [[], '\n' :: (joinLines lines ++ ['\n']), tail] := by
  have hfind0 : pyFind
      ("---".data ++ (('\n' :: (joinLines lines ++ ['\n'])) ++ ("---".data ++ tail)))
      "---".data = some 0 := by
    rw [pyFind.eq_def, if_pos (by simp [List.isPrefixOf])]
  rw [pySplitN, hfind0]
  show pySlice _ 0 0 :: pySplitN "---".data 1
    (("---".data ++ (('\n' :: (joinLines lines ++ ['\n'])) ++ ("---".data ++ tail))).drop
      (0 + "---".data.length)) = _
  have hdrop3 : ("---".data ++ (('\n' :: (joinLines lines ++ ['\n'])) ++
      ("---".data ++ tail))).drop (0 + "---".data.length) =
      ('\n' :: (joinLines lines ++ ['\n'])) ++ ("---".data ++ tail) := rfl
  rw [hdrop3]
  have hlast : ('\n' :: (joinLines lines ++ ['\n'])).getLast? = some '\n' := by
    rw [show '\n' :: (joinLines lines ++ ['\n']) =
      ('\n' :: joinLines lines) ++ ['\n'] by simp]
    exact List.getLast?_concat _
  have hfind1 : pyFind (('\n' :: (joinLines lines ++ ['\n'])) ++ ("---".data ++ tail))
      "---".data = some ('\n' :: (joinLines lines ++ ['\n'])).length :=
    pyFind_append_marker _ _ _ (by simp [List.isPrefixOf])
      (no_prefix_positions _ _ _ hA hlast (by decide))
  rw [pySplitN, hfind1]
  show pySlice _ 0 0 :: (pySlice _ 0 _ :: pySplitN "---".data 0 _) = _
  have hslice0 : pySlice ("---".data ++ (('\n' :: (joinLines lines ++ ['\n'])) ++
      ("---".data ++ tail))) 0 0 = [] := rfl
  have hslice1 : pySlice (('\n' :: (joinLines lines ++ ['\n'])) ++ ("---".data ++ tail))
      0 ('\n' :: (joinLines lines ++ ['\n'])).length =
      '\n' :: (joinLines lines ++ ['\n']) := by
    rw [pySlice, List.drop_zero, Nat.sub_zero]
    exact List.take_left _ _
  have hdroplast : ((('\n' :: (joinLines lines ++ ['\n'])) ++ ("---".data ++ tail)).drop
      (('\n' :: (joinLines lines ++ ['\n'])).length + "---".data.length)) = tail := by
    have e1 : ('\n' :: (joinLines lines ++ ['\n'])).length + "---".data.length =
        (('\n' :: (joinLines lines ++ ['\n'])) ++ "---".data).length := by simp
    have e2 : (('\n' :: (joinLines lines ++ ['\n'])) ++ ("---".data ++ tail)) =
        ((('\n' :: (joinLines lines ++ ['\n'])) ++ "---".data) ++ tail) := by simp
    rw [e1, e2]
    exact List.drop_left _ _
  rw [hslice0, hslice1, hdroplast]
  rfl

theorem parse_frontmatter_render (lines : List Str) (tail : Str)
    (hne : lines ≠ [])
    (hchar : ∀ l ∈ lines, ∀ c ∈ l, ¬ (c = '\n' ∨ c = '\x0d'))
    (hA : pyContains ('\n' :: (joinLines lines ++ ['\n'])) "---".data = false) :
    parse_frontmatter
      ("---".data ++ (('\n' :: (joinLines lines ++ ['\n'])) ++ ("---".data ++ tail))) =
      (match yamlParseMap lines with
       | some m => m
       | none => []) := by
  rw [parse_frontmatter]
  rw [if_neg (by simp [pyStartsWith, List.isPrefixOf])]
  rw [pySplitN2_render lines tail hA]
  show (match yamlParseMap (pySplitLines ('\n' :: (joinLines lines ++ ['\n']))) with
    | some m => m
    | none => []) = _
  have hsl : pySplitLines ('\n' :: (joinLines lines ++ ['\n'])) = [] :: lines := by
    rw [pySplitLines, pySplitLinesGo_newline, pySplitLines_joined lines hne hchar]
    rfl
  rw [hsl, yamlParseMap_skip_nil]

/-! ### The claims -/


/-- C1: for every artifact in Approved, when the running process's zone is
not local (the zone enum being {cloud, local}, spec §4.I), `execute_approved`
is a no-op returning its input unchanged; in particular a zone=cloud process
never moves any file into `Done` via it, regardless of the artifact's header
or the quota/send outcome. -/
theorem C1_cloud_zone_execute_approved_noop (work_zone : Str)
    (hz : work_zone = "cloud".data ∨ work_zone = "local".data)
    (hnl : work_zone ≠ "local".data)
    (limit : Int) (sendOk : Bool) (now : Str) (st : OrchState) (name content : Str) :
    execute_approved_zoned work_zone limit sendOk now st name content =
      (st, ExecResult.stayedApproved name) ∧
    (execute_approved_zoned work_zone limit sendOk now st name content).1.done =
      st.done := by
  have hc : work_zone = "cloud".data := by
    rcases hz with h | h
    · exact h
    · exact absurd h hnl
  subst hc
  have h1 : execute_approved_zoned "cloud".data limit sendOk now st name content =
      (st, ExecResult.stayedApproved name) := by
    simp [execute_approved_zoned, get_zone_capabilities]
  exact ⟨h1, by rw [h1]⟩

/-- Witness for C1 at zone `cloud` on a concrete approved artifact. -/
theorem C1_cloud_zone_execute_approved_noop_witness :
    execute_approved_zoned "cloud".data 20 true "ts".data c1_state
      "plan-cloud-block.md".data
      "---\nstatus: approved\n---\n\n# Plan\nDo something.\n".data =
      (c1_state, ExecResult.stayedApproved "plan-cloud-block.md".data) :=
  (C1_cloud_zone_execute_approved_noop "cloud".data (Or.inl rfl) (by decide)
    20 true "ts".data c1_state "plan-cloud-block.md".data
    "---\nstatus: approved\n---\n\n# Plan\nDo something.\n".data).1


/-- C2 (code bug, evaluated at the failing input): with `daily_send_limit=0`
and no counter file (`send_count = none`), `check_send_limit` returns `True`,
so `execute_approved` on an approved reply plan sends the reply, increments
the counter, logs `email_sent` and moves the plan to `Done` — against the
claim that no send ever occurs under `daily_limit=0` for any prior
counter-file state. -/
theorem C2_limit_zero_send_occurs_when_counter_absent :
    check_send_limit none 0 = true ∧
    dictGet (parse_frontmatter c2_plan) "action".data = some "reply".data ∧
    (execute_approved 0 true "ts".data c2_state "plan-1.md".data c2_plan).1.sent.length = 1 ∧
    (execute_approved 0 true "ts".data c2_state "plan-1.md".data c2_plan).1.send_count = some 1 ∧
    (∃ e ∈ (execute_approved 0 true "ts".data c2_state "plan-1.md".data c2_plan).1.logs,
      e.action = "email_sent".data) ∧
    (execute_approved 0 true "ts".data c2_state "plan-1.md".data c2_plan).2 =
      ExecResult.movedDone "plan-1.md".data ∧
    folderGet (execute_approved 0 true "ts".data c2_state "plan-1.md".data c2_plan).1.done
      "plan-1.md".data = some c2_plan := by decide

/-- C3 (code bug, evaluated at the failing input): with artifacts of
priority low, normal and high in `Needs_Action`, `get_pending_actions`
returns plain filename order (high, low, normal), which differs from the
priority-sorted order (high, normal, low) the claim prescribes
(`get_pending_actions_spec`). -/
theorem C3_get_pending_actions_ignores_priority :
    get_pending_actions c3_state =
      ["email-high.md".data, "email-low.md".data, "email-normal.md".data] ∧
    get_pending_actions_spec c3_state =
      ["email-high.md".data, "email-normal.md".data, "email-low.md".data] ∧
    get_pending_actions c3_state ≠ get_pending_actions_spec c3_state := by decide

/-- C4 (counterexample): the plan written by `process_action` for a source
artifact and a reply-carrying assistant response has a header whose keys are
exactly source, created, status, action, gmail_id, to and subject — no
`confidence` field, although the claim says the header carries one. -/
theorem C4_plan_header_lacks_confidence_cx :
    (process_action c4_state "email-c4.md".data c4_src c4_resp c4_now).2 = "plan-c4.md".data ∧
    dictGet (parse_frontmatter (render_plan "email-c4.md".data c4_src c4_resp c4_now))
      "action".data = some "reply".data ∧
    (parse_frontmatter (render_plan "email-c4.md".data c4_src c4_resp c4_now)).map (·.1) =
      ["source".data, "created".data, "status".data, "action".data,
       "gmail_id".data, "to".data, "subject".data] ∧
    dictGet (parse_frontmatter (render_plan "email-c4.md".data c4_src c4_resp c4_now))
      "confidence".data = none := by decide

/-- C4 (amended): for every Needs_Action artifact whose assistant response
contains a reply block, `process_action` writes the rendered plan into
`Pending_Approval`, and its parsed header carries `source` = the source
artifact's name, `created` = the timestamp, `status` = pending_approval,
`action` = reply, `gmail_id` and `to` copied from the source's `gmail_id`
and `from` fields, and `subject` = the source subject with a `Re:` prefix
added when not already present — but no `confidence` field (see the
counterexample).  The header-safety hypotheses say the inserted values are
in the plain single-line form this pipeline writes. -/
theorem C4_plan_header_fields (st : OrchState) (name content claude_response now : Str)
    (hm : pyContains claude_response beginMarker = true)
    (hname : plainValueOk name = true)
    (hnow : plainValueOk now = true)
    (hg : plainValueOk
      (dictGetD (parse_frontmatter content) "gmail_id".data []) = true)
    (hf : plainValueOk
      (dictGetD (parse_frontmatter content) "from".data []) = true)
    (hsafe : (build_plan_frontmatter name now (parse_frontmatter content)
      claude_response).all
        (fun l => l.all (fun c => !(c = '\n' || c = '\x0d'))) = true)
    (hA : pyContains
      ('\n' :: (joinLines (build_plan_frontmatter name now
        (parse_frontmatter content) claude_response) ++ ['\n']))
      "---".data = false) :
    (process_action st name content claude_response now).1.pending_approval =
      folderInsert st.pending_approval (pyReplace name "email-".data "plan-".data)
        (render_plan name content claude_response now) ∧
    parse_frontmatter (render_plan name content claude_response now) =
      [("source".data, name), ("created".data, now),
       ("status".data, "pending_approval".data), ("action".data, "reply".data),
       ("gmail_id".data, dictGetD (parse_frontmatter content) "gmail_id".data []),
       ("to".data, dictGetD (parse_frontmatter content) "from".data []),
       ("subject".data,
         if ¬ pyStartsWith (dictGetD (parse_frontmatter content) "subject".data [])
             "Re:".data then
           "Re: ".data ++ dictGetD (parse_frontmatter content) "subject".data []
         else dictGetD (parse_frontmatter content) "subject".data [])] ∧
    dictGet (parse_frontmatter (render_plan name content claude_response now))
      "source".data = some name ∧
    dictGet (parse_frontmatter (render_plan name content claude_response now))
      "created".data = some now ∧
    dictGet (parse_frontmatter (render_plan name content claude_response now))
      "status".data = some "pending_approval".data ∧
    dictGet (parse_frontmatter (render_plan name content claude_response now))
      "action".data = some "reply".data ∧
    dictGet (parse_frontmatter (render_plan name content claude_response now))
      "gmail_id".data =
      some (dictGetD (parse_frontmatter content) "gmail_id".data []) ∧
    dictGet (parse_frontmatter (render_plan name content claude_response now))
      "to".data = some (dictGetD (parse_frontmatter content) "from".data []) ∧
    dictGet (parse_frontmatter (render_plan name content claude_response now))
      "subject".data =
      some (if ¬ pyStartsWith (dictGetD (parse_frontmatter content)
          "subject".data []) "Re:".data then
        "Re: ".data ++ dictGetD (parse_frontmatter content) "subject".data []
      else dictGetD (parse_frontmatter content) "subject".data []) := by
  have hfold : (process_action st name content claude_response now).1.pending_approval =
      folderInsert st.pending_approval (pyReplace name "email-".data "plan-".data)
        (render_plan name content claude_response now) := rfl
  -- abbreviations
  have hlines : build_plan_frontmatter name now (parse_frontmatter content)
      claude_response =
      ["source: ".data ++ name, "created: ".data ++ now,
       "status: pending_approval".data, "action: reply".data,
       "gmail_id: ".data ++ dictGetD (parse_frontmatter content) "gmail_id".data [],
       "to: ".data ++ dictGetD (parse_frontmatter content) "from".data [],
       "subject: \"".data ++
         (if ¬ pyStartsWith (dictGetD (parse_frontmatter content) "subject".data [])
             "Re:".data then
           "Re: ".data ++ dictGetD (parse_frontmatter content) "subject".data []
         else dictGetD (parse_frontmatter content) "subject".data []) ++
         "\"".data] := by
    rw [build_plan_frontmatter, if_pos hm]
    simp [List.append_assoc]
  -- shorthand for the seven header lines and their values
  set g := dictGetD (parse_frontmatter content) "gmail_id".data [] with hg_def
  set f := dictGetD (parse_frontmatter content) "from".data [] with hf_def
  set subj := (if ¬ pyStartsWith (dictGetD (parse_frontmatter content)
      "subject".data []) "Re:".data then
    "Re: ".data ++ dictGetD (parse_frontmatter content) "subject".data []
  else dictGetD (parse_frontmatter content) "subject".data []) with hsubj_def
  have renderEq : render_plan name content claude_response now =
      "---".data ++ (('
' :: (joinLines (build_plan_frontmatter name now
        (parse_frontmatter content) claude_response) ++ ['
'])) ++
        ("---".data ++ ("

# Plan: ".data ++ (pyStem name ++
          ("

".data ++ (claude_response ++ "
".data)))))) := by
    rw [render_plan]
    simp only [List.append_assoc, List.cons_append]
    rfl
  have hparse : parse_frontmatter (render_plan name content claude_response now) =
      (match yamlParseMap (build_plan_frontmatter name now
        (parse_frontmatter content) claude_response) with
       | some m => m
       | none => []) := by
    rw [renderEq]
    apply parse_frontmatter_render
    · rw [hlines]
      simp
    · intro l hl c hc
      have h1 := List.all_eq_true.mp hsafe l hl
      have h2 := List.all_eq_true.mp h1 c hc
      simp only [Bool.not_eq_true', Bool.or_eq_false_iff,
        decide_eq_false_iff_not] at h2
      exact not_or.mpr h2
    · exact hA
  -- parse each header line
  obtain ⟨hn1, hn2, hn3⟩ : (decide (pyStrip name = name) = true ∧
      pyStartsWith name "\"".data = false ∧ pyContains name ": ".data = false) := by
    rw [plainValueOk] at hname
    simp only [Bool.and_eq_true, Bool.not_eq_true'] at hname
    exact ⟨hname.1.1, hname.1.2, hname.2⟩
  obtain ⟨hw1, hw2, hw3⟩ : (decide (pyStrip now = now) = true ∧
      pyStartsWith now "\"".data = false ∧ pyContains now ": ".data = false) := by
    rw [plainValueOk] at hnow
    simp only [Bool.and_eq_true, Bool.not_eq_true'] at hnow
    exact ⟨hnow.1.1, hnow.1.2, hnow.2⟩
  obtain ⟨hg1, hg2, hg3⟩ : (decide (pyStrip g = g) = true ∧
      pyStartsWith g "\"".data = false ∧ pyContains g ": ".data = false) := by
    rw [plainValueOk] at hg
    simp only [Bool.and_eq_true, Bool.not_eq_true'] at hg
    exact ⟨hg.1.1, hg.1.2, hg.2⟩
  obtain ⟨hf1, hf2, hf3⟩ : (decide (pyStrip f = f) = true ∧
      pyStartsWith f "\"".data = false ∧ pyContains f ": ".data = false) := by
    rw [plainValueOk] at hf
    simp only [Bool.and_eq_true, Bool.not_eq_true'] at hf
    exact ⟨hf.1.1, hf.1.2, hf.2⟩
  have hl1 : yamlParseLine ("source: ".data ++ name) =
      some (some ("source".data, name)) := by
    rw [show "source: ".data ++ name = "source".data ++ ':' :: ' ' :: name from rfl]
    rw [yamlParseLine_plain "source".data name 's' "ource".data rfl (by decide)
      (by decide) (by decide) (of_decide_eq_true hn1) hn2 hn3]
    rfl
  have hl2 : yamlParseLine ("created: ".data ++ now) =
      some (some ("created".data, now)) := by
    rw [show "created: ".data ++ now = "created".data ++ ':' :: ' ' :: now from rfl]
    rw [yamlParseLine_plain "created".data now 'c' "reated".data rfl (by decide)
      (by decide) (by decide) (of_decide_eq_true hw1) hw2 hw3]
    rfl
  have hl3 : yamlParseLine "status: pending_approval".data =
      some (some ("status".data, "pending_approval".data)) := by decide
  have hl4 : yamlParseLine "action: reply".data =
      some (some ("action".data, "reply".data)) := by decide
  have hl5 : yamlParseLine ("gmail_id: ".data ++ g) =
      some (some ("gmail_id".data, g)) := by
    rw [show "gmail_id: ".data ++ g = "gmail_id".data ++ ':' :: ' ' :: g from rfl]
    rw [yamlParseLine_plain "gmail_id".data g 'g' "mail_id".data rfl (by decide)
      (by decide) (by decide) (of_decide_eq_true hg1) hg2 hg3]
    rfl
  have hl6 : yamlParseLine ("to: ".data ++ f) =
      some (some ("to".data, f)) := by
    rw [show "to: ".data ++ f = "to".data ++ ':' :: ' ' :: f from rfl]
    rw [yamlParseLine_plain "to".data f 't' "o".data rfl (by decide)
      (by decide) (by decide) (of_decide_eq_true hf1) hf2 hf3]
    rfl
  have hl7 : yamlParseLine ("subject: \"".data ++ subj ++ "\"".data) =
      some (some ("subject".data, subj)) := by
    rw [show "subject: \"".data ++ subj ++ "\"".data =
      "subject".data ++ ':' :: ' ' :: '"' :: (subj ++ ['"']) by
        simp [List.append_assoc]]
    rw [yamlParseLine_quoted "subject".data subj 's' "ubject".data rfl (by decide)
      (by decide) (by decide)]
    rfl
  have hmap : yamlParseMap (build_plan_frontmatter name now
      (parse_frontmatter content) claude_response) =
      some [("source".data, name), ("created".data, now),
        ("status".data, "pending_approval".data), ("action".data, "reply".data),
        ("gmail_id".data, g), ("to".data, f), ("subject".data, subj)] := by
    rw [hlines]
    rw [yamlParseMap, hl1, yamlParseMap, hl2, yamlParseMap, hl3, yamlParseMap,
      hl4, yamlParseMap, hl5, yamlParseMap, hl6, yamlParseMap, hl7, yamlParseMap]
  have hparse2 : parse_frontmatter (render_plan name content claude_response now) =
      [("source".data, name), ("created".data, now),
        ("status".data, "pending_approval".data), ("action".data, "reply".data),
        ("gmail_id".data, g), ("to".data, f), ("subject".data, subj)] := by
    rw [hparse, hmap]
  refine ⟨hfold, hparse2, ?_, ?_, ?_, ?_, ?_, ?_, ?_⟩ <;>
    rw [hparse2] <;> simp +decide [dictGet, List.find?]

/-- Witness for C4 on a concrete email artifact: the plan header's subject
is `Re: Hello`. -/
theorem C4_plan_header_fields_witness :
    dictGet (parse_frontmatter (render_plan "email-c4.md".data c4_src c4_resp
      c4_now)) "subject".data = some "Re: Hello".data :=
  ((C4_plan_header_fields c4_state "email-c4.md".data c4_src c4_resp c4_now
    (by decide) (by decide) (by decide) (by decide) (by decide) (by decide)
    (by decide)).2.2.2.2.2.2.2.2).trans (by decide)


/-- C5 (counterexample): when the daily quota is exhausted (limit 0 with an
existing counter file), `execute_approved` on an approved reply plan without
reply markers returns the input unchanged: the plan stays in `Approved`, is
not moved to `Done`, and no `reply_failed` entry is logged — against the
claim as stated, which requires the move and log for every such plan. -/
theorem C5_quota_blocks_reply_failed_cx :
    dictGet (parse_frontmatter c5_plan) "action".data = some "reply".data ∧
    extract_reply_block c5_plan = none ∧
    check_send_limit c5_state.send_count 0 = false ∧
    execute_approved 0 true "ts".data c5_state "plan-bad.md".data c5_plan =
      (c5_state, ExecResult.stayedApproved "plan-bad.md".data) ∧
    folderGet (execute_approved 0 true "ts".data c5_state "plan-bad.md".data c5_plan).1.done
      "plan-bad.md".data = none ∧
    (∀ e ∈ (execute_approved 0 true "ts".data c5_state "plan-bad.md".data c5_plan).1.logs,
      e.action ≠ "reply_failed".data) := by decide

/-- C5 (amended): for every plan in Approved with `action: reply` whose text
lacks a reply block, provided the daily send-quota check passes,
`execute_approved` sends nothing, logs `reply_failed` with the artifact as
source, and moves the plan to `Done` (so the failure is permanent).  The
quota gate runs first; see the counterexample for the exhausted-quota
case. -/
theorem C5_missing_reply_block_moves_to_done (limit : Int) (sendOk : Bool) (now : Str) (st : OrchState)
    (name content : Str)
    (hq : check_send_limit st.send_count limit = true)
    (ha : dictGet (parse_frontmatter content) "action".data = some "reply".data)
    (hr : extract_reply_block content = none) :
    execute_approved limit sendOk now st name content =
      ({ st with
          approved := folderRemove st.approved name
          done := folderInsert st.done name content
          logs := log_action st.logs now "orchestrator".data "reply_failed".data
            name "missing_reply_block".data },
       ExecResult.movedDone name) ∧
    (execute_approved limit sendOk now st name content).1.sent = st.sent ∧
    (execute_approved limit sendOk now st name content).1.send_count = st.send_count ∧
    folderGet (execute_approved limit sendOk now st name content).1.done name =
      some content := by
  have h1 : execute_approved limit sendOk now st name content =
      ({ st with
          approved := folderRemove st.approved name
          done := folderInsert st.done name content
          logs := log_action st.logs now "orchestrator".data "reply_failed".data
            name "missing_reply_block".data },
       ExecResult.movedDone name) := by
    simp [execute_approved, ha, hq, hr]
  refine ⟨h1, by rw [h1], by rw [h1], ?_⟩
  rw [h1]
  exact folderGet_folderInsert_self _ _ _

/-- Witness for C5 on a concrete marker-less reply plan with a free
quota. -/
theorem C5_missing_reply_block_moves_to_done_witness :
    folderGet (execute_approved 5 true "ts".data c5_ok_state
      "plan-bad.md".data c5_plan).1.done "plan-bad.md".data = some c5_plan :=
  (C5_missing_reply_block_moves_to_done 5 true "ts".data c5_ok_state
    "plan-bad.md".data c5_plan (by decide) (by decide) (by decide)).2.2.2


/-- C6: `review_rejected` moves the rejected artifact to `Done` and logs
`rejection_reviewed`; the Memory file gains a bullet-prefixed, timestamped,
non-empty line exactly when the assistant returned non-empty output
(`Xor'`), and is untouched on empty output. -/
theorem C6_review_rejected_memory_xor (st : OrchState) (name content assistant_output now : Str)
    (h : folderGet st.rejected name = some content) :
    folderGet (review_rejected st name content assistant_output now).done name =
      some content ∧
    (review_rejected st name content assistant_output now).logs =
      log_action st.logs now "orchestrator".data "rejection_reviewed".data name
        "moved_to_done".data ∧
    (assistant_output = [] →
      (review_rejected st name content assistant_output now).memory = st.memory) ∧
    (assistant_output ≠ [] →
      (review_rejected st name content assistant_output now).memory =
        some ((st.memory.getD DEFAULT_AGENT_MEMORY) ++ "\n".data ++
          ("- [".data ++ now ++ "] ".data ++ assistant_output)) ∧
      ("- [".data ++ now ++ "] ".data ++ assistant_output) ≠ []) ∧
    Xor' ((review_rejected st name content assistant_output now).memory ≠ st.memory)
      (assistant_output = []) := by
  by_cases ho : assistant_output = []
  · subst ho
    refine ⟨?_, ?_, ?_, ?_, ?_⟩
    · simp [review_rejected, folderGet_folderInsert_self]
    · simp [review_rejected, log_action]
    · intro _; simp [review_rejected]
    · intro hcon; exact absurd rfl hcon
    · right
      refine ⟨rfl, ?_⟩
      simp [review_rejected]
  · have hmem : (review_rejected st name content assistant_output now).memory =
        some ((st.memory.getD DEFAULT_AGENT_MEMORY) ++ "\n".data ++
          ("- [".data ++ now ++ "] ".data ++ assistant_output)) := by
      simp [review_rejected, ho, List.append_assoc]
    refine ⟨?_, ?_, ?_, ?_, ?_⟩
    · simp [review_rejected, ho, folderGet_folderInsert_self]
    · simp [review_rejected, ho, log_action]
    · intro hc; exact absurd hc ho
    · intro _
      refine ⟨hmem, by simp⟩
    · left
      refine ⟨?_, ho⟩
      rw [hmem]
      cases hm : st.memory with
      | none => simp
      | some m =>
        simp only [Option.getD_some, ne_eq, Option.some.injEq]
        intro hcontra
        have hlen := congrArg List.length hcontra
        simp [List.length_append] at hlen

/-- Witness for C6 on a concrete rejected plan and learning sentence. -/
theorem C6_review_rejected_memory_xor_witness :
    folderGet (review_rejected c6_state "plan-rejected-test.md".data c6_plan
      "Do not use overly formal language.".data "ts".data).done
      "plan-rejected-test.md".data = some c6_plan :=
  (C6_review_rejected_memory_xor c6_state "plan-rejected-test.md".data c6_plan
    "Do not use overly formal language.".data "ts".data (by decide)).1


/-- C7 (counterexample): an artifact whose age is exactly `min_age`
(300 s) — so its age does **not** exceed `min_age` and its
`quarantine_time` parses — is nevertheless returned to `Needs_Action` by
`process_quarantine`, with the two quarantine header fields stripped. -/
theorem C7_process_quarantine_boundary_cx :
    extract_quarantine_time c7_item = some 1767225600000000 ∧
    (process_quarantine 1767225900000000 300 c7_state).2 = ["email-a.md".data] ∧
    ¬ (300 * 1000000 < 1767225900000000 - 1767225600000000) ∧
    folderGet (process_quarantine 1767225900000000 300 c7_state).1.quarantine
      "email-a.md".data = none ∧
    folderGet (process_quarantine 1767225900000000 300 c7_state).1.needs_action
      "email-a.md".data =
      some ("---\ntype: email\n---\n\n# Email A\n").data := by decide

/-- C7 (amended): `process_quarantine` returns to `Needs_Action` exactly
those quarantined `.md` artifacts whose age is **at least** `min_age`
(`min_age·10⁶ ≤ now − quarantine_time` in microseconds) or whose
`quarantine_time` is missing or unparseable; restored artifacts land in
`Needs_Action` with the quarantine header fields stripped, younger artifacts
stay in `Quarantine` untouched, and if every item is younger than `min_age`
the call is a no-op returning the empty list. -/
theorem C7_process_quarantine_selection (nowUs min_age : Int) (st : OrchState)
    (hnd : ((quarantineWorkList st).map (·.1)).Nodup) :
    (process_quarantine nowUs min_age st).2 =
      ((quarantineWorkList st).filter (fun p =>
        match extract_quarantine_time p.2 with
        | none => true
        | some t => decide (min_age * 1000000 ≤ nowUs - t))).map (·.1) ∧
    (∀ p ∈ quarantineWorkList st,
      (match extract_quarantine_time p.2 with
       | none => true
       | some t => decide (min_age * 1000000 ≤ nowUs - t)) = true →
      folderGet (process_quarantine nowUs min_age st).1.needs_action p.1 =
        some (strip_quarantine_metadata p.2)) ∧
    (∀ p ∈ quarantineWorkList st,
      (match extract_quarantine_time p.2 with
       | none => true
       | some t => decide (min_age * 1000000 ≤ nowUs - t)) = false →
      folderGet (process_quarantine nowUs min_age st).1.quarantine p.1 =
        folderGet st.quarantine p.1 ∧
      p.1 ∉ (process_quarantine nowUs min_age st).2) ∧
    ((∀ p ∈ quarantineWorkList st, ∃ t, extract_quarantine_time p.2 = some t ∧
        nowUs - t < min_age * 1000000) →
      process_quarantine nowUs min_age st = (st, [])) := by
  have hfun : (fun p : Str × Str =>
      (match extract_quarantine_time p.2 with
       | none => true
       | some t => decide (min_age * 1000000 ≤ nowUs - t))) =
      (fun p : Str × Str => shouldRestore nowUs min_age p.2) :=
    funext fun p => (shouldRestore_eq nowUs min_age p.2).symm
  refine ⟨?_, ?_, ?_, ?_⟩
  · rw [hfun]
    exact pqGo_moved nowUs min_age (quarantineWorkList st) st
  · intro p hp hres
    rw [← shouldRestore_eq nowUs min_age p.2] at hres
    exact pqGo_needs nowUs min_age (quarantineWorkList st) st hnd p hp hres
  · intro p hp hres
    rw [← shouldRestore_eq nowUs min_age p.2] at hres
    have hnotin : p.1 ∉ ((quarantineWorkList st).filter
        (fun r => shouldRestore nowUs min_age r.2)).map (·.1) := by
      intro hmem
      obtain ⟨r, hr, hr1⟩ := List.mem_map.mp hmem
      have hrq : r ∈ quarantineWorkList st := List.mem_of_mem_filter hr
      have : r = p := List.inj_on_of_nodup_map hnd hrq hp hr1
      rw [this] at hr
      have := List.of_mem_filter hr
      rw [hres] at this
      exact Bool.false_ne_true this
    refine ⟨(pqGo_preserve nowUs min_age p.1 (quarantineWorkList st) st hnotin).2, ?_⟩
    rw [process_quarantine, pqGo_moved]
    exact hnotin
  · intro hall
    apply pqGo_noop
    intro p hp
    obtain ⟨t, ht, hlt⟩ := hall p hp
    rw [shouldRestore_eq, ht]
    simpa using hlt

/-- Witness for C7 on a quarantine with one item past `min_age` and one
younger item: only the old item is restored. -/
theorem C7_process_quarantine_selection_witness :
    (process_quarantine 1767225900000000 300 c7w_state).2 = ["email-a.md".data] :=
  ((C7_process_quarantine_selection 1767225900000000 300 c7w_state (by decide)).1).trans (by decide)

/-- C8: `classify_priority` evaluates its rules in order with first match
winning — a case-insensitive urgency keyword in subject or body yields
`high` and dominates both a VIP match and a newsletter pattern; otherwise a
case-insensitive VIP sender match yields `high`; otherwise a newsletter /
no-reply pattern contained in the sender yields `low`; otherwise
`normal`. -/
theorem C8_classify_priority_ordered_rules (subject body sender : Str) (vips : List Str) :
    ((∃ kw ∈ URGENCY_KEYWORDS, pyContains (pyLower subject) kw = true ∨
        pyContains (pyLower body) kw = true) →
      classify_priority subject body sender vips = "high".data) ∧
    ((¬ ∃ kw ∈ URGENCY_KEYWORDS, pyContains (pyLower subject) kw = true ∨
        pyContains (pyLower body) kw = true) →
      (∃ vip ∈ vips, pyLower vip = pyLower sender) →
      classify_priority subject body sender vips = "high".data) ∧
    ((¬ ∃ kw ∈ URGENCY_KEYWORDS, pyContains (pyLower subject) kw = true ∨
        pyContains (pyLower body) kw = true) →
      (¬ ∃ vip ∈ vips, pyLower vip = pyLower sender) →
      (∃ pat ∈ NEWSLETTER_PATTERNS, pyContains (pyLower sender) pat = true) →
      classify_priority subject body sender vips = "low".data) ∧
    ((¬ ∃ kw ∈ URGENCY_KEYWORDS, pyContains (pyLower subject) kw = true ∨
        pyContains (pyLower body) kw = true) →
      (¬ ∃ vip ∈ vips, pyLower vip = pyLower sender) →
      (¬ ∃ pat ∈ NEWSLETTER_PATTERNS, pyContains (pyLower sender) pat = true) →
      classify_priority subject body sender vips = "normal".data) := by
  have urg : ∀ (hu : ¬ ∃ kw ∈ URGENCY_KEYWORDS,
      pyContains (pyLower subject) kw = true ∨ pyContains (pyLower body) kw = true),
      URGENCY_KEYWORDS.any (fun kw =>
        pyContains (pyLower subject) kw || pyContains (pyLower body) kw) = false := by
    intro hu
    rw [List.any_eq_false]
    intro kw hkw
    simp only [Bool.or_eq_true]
    exact fun h' => hu ⟨kw, hkw, h'⟩
  have vipf : ∀ (hv : ¬ ∃ vip ∈ vips, pyLower vip = pyLower sender),
      vips.any (fun vip => pyLower vip = pyLower sender) = false := by
    intro hv
    rw [List.any_eq_false]
    intro v hvv
    simp only [decide_eq_true_eq]
    exact fun h' => hv ⟨v, hvv, h'⟩
  have newsf : ∀ (hn : ¬ ∃ pat ∈ NEWSLETTER_PATTERNS,
      pyContains (pyLower sender) pat = true),
      NEWSLETTER_PATTERNS.any (fun pat => pyContains (pyLower sender) pat) = false := by
    intro hn
    rw [List.any_eq_false]
    intro p hp
    exact fun h' => hn ⟨p, hp, h'⟩
  refine ⟨?_, ?_, ?_, ?_⟩
  · intro h
    have hc : URGENCY_KEYWORDS.any (fun kw =>
        pyContains (pyLower subject) kw || pyContains (pyLower body) kw) = true := by
      rw [List.any_eq_true]
      obtain ⟨kw, hkw, h'⟩ := h
      exact ⟨kw, hkw, by simpa [Bool.or_eq_true] using h'⟩
    simp [classify_priority, hc]
  · intro h1 h2
    have hc2 : vips.any (fun vip => pyLower vip = pyLower sender) = true := by
      rw [List.any_eq_true]
      obtain ⟨v, hv, h'⟩ := h2
      exact ⟨v, hv, by simpa using h'⟩
    simp [classify_priority, urg h1, hc2]
  · intro h1 h2 h3
    have hc3 : NEWSLETTER_PATTERNS.any (fun pat =>
        pyContains (pyLower sender) pat) = true := by
      rw [List.any_eq_true]
      obtain ⟨p, hp, h'⟩ := h3
      exact ⟨p, hp, h'⟩
    simp [classify_priority, urg h1, vipf h2, hc3]
  · intro h1 h2 h3
    simp [classify_priority, urg h1, vipf h2, newsf h3]

/-- Witness for C8: an urgency keyword in the subject dominates a sender
that is both a VIP and a newsletter pattern. -/
theorem C8_classify_priority_ordered_rules_witness :
    classify_priority "URGENT: pay invoice".data "body".data
      "noreply@corp.com".data ["noreply@corp.com".data] = "high".data :=
  (C8_classify_priority_ordered_rules "URGENT: pay invoice".data "body".data
    "noreply@corp.com".data ["noreply@corp.com".data]).1 (by decide)


/-- C9: `process_action` derives the plan name by replacing `email-` with
`plan-`; for a source artifact whose name does not contain `email-` the plan
is written into `Pending_Approval` under exactly the source's filename, and
the write silently overwrites (via `folderInsert`) any file of that name
already present instead of failing. -/
theorem C9_process_action_name_passthrough (st : OrchState) (name content claude_response now : Str)
    (h : pyContains name "email-".data = false) :
    (process_action st name content claude_response now).2 = name ∧
    (process_action st name content claude_response now).1.pending_approval =
      folderInsert st.pending_approval name
        (render_plan name content claude_response now) ∧
    folderGet (process_action st name content claude_response now).1.pending_approval
      name = some (render_plan name content claude_response now) := by
  have hr : pyReplace name "email-".data "plan-".data = name :=
    pyReplace_of_not_contains _ _ _ h (by decide)
  refine ⟨?_, ?_, ?_⟩ <;>
    simp [process_action, hr, folderGet_folderInsert_self]

/-- Witness for C9 on a file-watcher artifact name, with a file of the same
name already present in `Pending_Approval`. -/
theorem C9_process_action_name_passthrough_witness :
    (process_action { emptyState with
        needs_action := [("file-report.md".data, "# A file".data)]
        pending_approval := [("file-report.md".data, "old plan".data)] }
      "file-report.md".data "# A file".data "## Analysis".data
      "ts".data).2 = "file-report.md".data :=
  (C9_process_action_name_passthrough { emptyState with
      needs_action := [("file-report.md".data, "# A file".data)]
      pending_approval := [("file-report.md".data, "old plan".data)] }
    "file-report.md".data "# A file".data "## Analysis".data "ts".data
    (by decide)).1


/-- C10: `extract_reply_block` returns `none` exactly when at least one of
the two reply markers is absent; it does not require END to occur after
BEGIN — on a plan whose END marker precedes its BEGIN marker it returns
`some ""`, and `execute_approved` then takes the send path (the plan is
moved to `Done` with a send recorded) rather than the `reply_failed`
path. -/
theorem C10_extract_reply_block_marker_presence :
    (∀ text : Str, extract_reply_block text = none ↔
      (pyContains text beginMarker = false ∨ pyContains text endMarker = false)) ∧
    extract_reply_block c10_reversed = some [] ∧
    (execute_approved 20 true "ts".data c10_state "plan-rev.md".data c10_reversed).2 =
      ExecResult.movedDone "plan-rev.md".data ∧
    (execute_approved 20 true "ts".data c10_state "plan-rev.md".data c10_reversed).1.sent.length = 1 ∧
    (∀ e ∈ (execute_approved 20 true "ts".data c10_state "plan-rev.md".data
        c10_reversed).1.logs, e.action ≠ "reply_failed".data) := by
  refine ⟨?_, by decide, by decide, by decide, by decide⟩
  intro text
  rw [← pyFind_eq_none_iff, ← pyFind_eq_none_iff]
  cases h1 : pyFind text beginMarker <;> cases h2 : pyFind text endMarker <;>
    simp [extract_reply_block, h1, h2]

end DigitalFTE
